import Mathlib

/-!
# Verification of the BLE presence service against its specification

Shallow embedding of `src/integrations/bluetooth-low-energy/bluetooth-low-energy.service.ts`
(room-assistant).  JavaScript `Buffer`s become lists of bytes, JS `Map`/`Set`
become association lists / lists with the exact JS operational semantics
(`set` replaces in place, `get` returns `undefined` for a missing key, which we
render as `Option`), and the asynchronous companion-app handshake becomes a
function of an explicit environment-chosen outcome.  Machine floats (RSSI,
distances) are modelled as rationals; only order comparisons on them occur in
the embedded code.
-/

namespace BLE

/-- A JS `Buffer`: a list of bytes. -/
abbrev Buffer := List Nat

/-- `Buffer.readUInt16LE(o)`: little-endian 16-bit read at offset `o`. -/
def readUInt16LE (b : Buffer) (o : Nat) : Nat :=
  b.getD o 0 + 256 * b.getD (o + 1) 0

/-- `Buffer.readUInt8(o)`. -/
def readUInt8 (b : Buffer) (o : Nat) : Nat :=
  b.getD o 0

/-- `APPLE_ADVERTISEMENT_ID = Buffer.from([0x4c, 0x00, 0x10])` (service line 32). -/
def APPLE_ADVERTISEMENT_ID : Buffer := [0x4c, 0x00, 0x10]

/-- A noble `Peripheral` as the service reads it: transport id, connectable
flag, and the advertisement's manufacturer data (`none` when the advertisement
carries no such buffer, covering the `?.` chains in the service). -/
structure Peripheral where
  id : String
  connectable : Bool
  manufacturerData : Option Buffer
  rssi : ℚ
  deriving Repr, DecidableEq

/-- Which constructor `createTag` chose: generic `Tag` or `IBeacon`. -/
inductive TagKind where
  | plain
  | beacon
  deriving Repr, DecidableEq

/-- A `Tag` (or `IBeacon`) as the service manipulates it.  Modelled from the
spec (§3) where the class internals (`tag.ts`, `i-beacon.ts`) are not under
`src/`: identity, display name, raw signal strength, the peripheral handle, the
measured-power constant, the `isApp` flag, the derived distance, and — for
beacons — the decoded battery level. -/
structure Tag where
  id : String
  name : String
  rssi : ℚ
  peripheral : Peripheral
  measuredPower : ℚ
  isApp : Bool
  distance : ℚ
  kind : TagKind
  batteryLevel : Option ℚ
  deriving Repr, DecidableEq

/-- The configuration fields of `BluetoothLowEnergyConfig` that the embedded
code reads.  List fields are `Option` so that an absent (`undefined`) list is
distinguishable, matching the `?.length` and `|| []` accesses in the source. -/
structure BLEConfig where
  allowlist : Option (List String) := none
  whitelist : Option (List String) := none
  denylist : Option (List String) := none
  blacklist : Option (List String) := none
  allowlistRegex : Bool := false
  whitelistRegex : Bool := false
  denylistRegex : Bool := false
  blacklistRegex : Bool := false
  processIBeacon : Bool := false
  onlyIBeacon : Bool := false
  maxDistance : ℚ := 0
  updateFrequency : ℚ := 0
  timeout : ℚ := 0
  instanceName : String := ""
  deriving Repr

/-- `isIBeacon(manufacturerData)` (service lines 216-224): the buffer is
present, at least 25 bytes, carries the Apple company identifier `0x004c`
little-endian at offset 0, the iBeacon type byte `0x02` at offset 2 and the
iBeacon data-length byte `0x15` at offset 3.  (A JS `Buffer` object is always
truthy, so only an absent buffer fails the first conjunct.) -/
def isIBeacon (manufacturerData : Option Buffer) : Bool :=
  match manufacturerData with
  | none => false
  | some b =>
      decide (25 ≤ b.length) &&
      readUInt16LE b 0 == 0x004c &&
      readUInt8 b 2 == 0x02 &&
      readUInt8 b 3 == 0x15

/-- The classification branch of `createTag` (service lines 415-429): an
`IBeacon` is constructed exactly when `processIBeacon` is configured and the
manufacturer data matches `isIBeacon`; otherwise a generic `Tag`.  The
constructors' field population lives in `tag.ts`/`i-beacon.ts` (not under
`src/`); the decision embedded here is the whole classification. -/
def createTagKind (cfg : BLEConfig) (p : Peripheral) : TagKind :=
  if cfg.processIBeacon && isIBeacon p.manufacturerData then .beacon else .plain

/-! ## Allow/deny filter (service lines 231-286) -/

/-- JS `String.prototype.toLowerCase` restricted to the characters that occur
in device identities: per-character lowercasing. -/
def strLower (s : String) : String := ⟨s.data.map Char.toLower⟩

/-- `isAllowlistEnabled()` (lines 231-235): `allowlist?.length > 0 ||
whitelist?.length > 0`; `undefined?.length > 0` is false. -/
def isAllowlistEnabled (cfg : BLEConfig) : Bool :=
  decide (0 < (cfg.allowlist.getD []).length) ||
  decide (0 < (cfg.whitelist.getD []).length)

/-- `isDenylistEnabled()` (lines 242-246). -/
def isDenylistEnabled (cfg : BLEConfig) : Bool :=
  decide (0 < (cfg.denylist.getD []).length) ||
  decide (0 < (cfg.blacklist.getD []).length)

/-- `isOnAllowlist(id)` (lines 254-266).  `rmatch id pat` models the
truthiness of `id.match(pat)` for a regex pattern; literal mode lower-cases
both sides and tests exact membership. -/
def isOnAllowlist (rmatch : String → String → Bool) (cfg : BLEConfig)
    (id : String) : Bool :=
  let allowlist := cfg.allowlist.getD [] ++ cfg.whitelist.getD []
  if allowlist.length == 0 then false
  else if cfg.allowlistRegex || cfg.whitelistRegex then
    allowlist.any (fun r => rmatch id r)
  else
    (allowlist.map strLower).contains (strLower id)

/-- `isOnDenylist(id)` (lines 274-286). -/
def isOnDenylist (rmatch : String → String → Bool) (cfg : BLEConfig)
    (id : String) : Bool :=
  let denylist := cfg.denylist.getD [] ++ cfg.blacklist.getD []
  if denylist.length == 0 then false
  else if cfg.denylistRegex || cfg.blacklistRegex then
    denylist.any (fun r => rmatch id r)
  else
    (denylist.map strLower).contains (strLower id)

/-- The filter condition of `handleDiscovery` (lines 102-106): the device is
processed further iff
`(isOnAllowlist(id) || (!isAllowlistEnabled() && isDenylistEnabled())) && !isOnDenylist(id)`. -/
def passesFilter (rmatch : String → String → Bool) (cfg : BLEConfig)
    (id : String) : Bool :=
  (isOnAllowlist rmatch cfg id ||
    (!isAllowlistEnabled cfg && isDenylistEnabled cfg)) &&
  !isOnDenylist rmatch cfg id

/-- The decision rule in the words of the spec (§4.4): a device passes if
(it is present on a non-empty allowlist OR (allowlist is empty AND denylist is
non-empty)) AND it is not present on the denylist — with "present on" meaning
regex match when the corresponding regex flag is set and case-insensitive
exact match otherwise.  Stated independently of the source for refinement. -/
def specPassesFilter (rmatch : String → String → Bool) (cfg : BLEConfig)
    (id : String) : Prop :=
  let allow := cfg.allowlist.getD [] ++ cfg.whitelist.getD []
  let deny := cfg.denylist.getD [] ++ cfg.blacklist.getD []
  let onAllow :=
    if cfg.allowlistRegex || cfg.whitelistRegex then
      ∃ r ∈ allow, rmatch id r
    else ∃ x ∈ allow, strLower x = strLower id
  let onDeny :=
    if cfg.denylistRegex || cfg.blacklistRegex then
      ∃ r ∈ deny, rmatch id r
    else ∃ x ∈ deny, strLower x = strLower id
  ((allow ≠ [] ∧ onAllow) ∨ (allow = [] ∧ deny ≠ [])) ∧ ¬ onDeny

/-! ## JS `Map<string, string>` / `Set<string>` semantics

`companionAppTags : Map<string, string>` holds `null` for a pending entry, so
its values are `Option String`; `get` on a missing key yields `undefined`,
rendered as the outer `Option`. -/

/-- Association-list model of `companionAppTags`. -/
abbrev TagMap := List (String × Option String)

/-- `Map.has(k)`: is some entry stored under key `k`? -/
def mapHas : TagMap → String → Bool
  | [], _ => false
  | e :: m, k => e.1 == k || mapHas m k

/-- `Map.get(k)`: the first entry under `k`; `none` for `undefined`,
`some none` for a stored `null`. -/
def mapGet : TagMap → String → Option (Option String)
  | [], _ => none
  | e :: m, k => if e.1 == k then some e.2 else mapGet m k

/-- `Map.set(k, v)`: replaces the value in place when the key is present,
appends otherwise. -/
def mapSet (m : TagMap) (k : String) (v : Option String) : TagMap :=
  if mapHas m k then m.map (fun e => if e.1 == k then (k, v) else e)
  else m ++ [(k, v)]

/-- `Map.delete(k)`. -/
def mapDelete (m : TagMap) (k : String) : TagMap :=
  m.filter (fun e => e.1 != k)

/-- `Set.has(x)`. -/
def setHas : List String → String → Bool
  | [], _ => false
  | y :: s, x => y == x || setHas s x

/-- `Set.add(x)` (JS sets are duplicate-free). -/
def setAdd (s : List String) (x : String) : List String :=
  if setHas s x then s else s ++ [x]

/-- `Set.delete(x)`. -/
def setDelete (s : List String) (x : String) : List String :=
  s.filter (fun y => y != x)

/-! ## Companion-app identity resolution (service lines 460-533) -/

/-- The mutable companion-resolution state of the service: the id cache
`companionAppTags`, the temporary denylist `companionAppDenylist`, and the
`setTimeout` removals scheduled against the denylist, recorded as
(identity, delay in milliseconds). -/
structure CompanionState where
  companionAppTags : TagMap := []
  companionAppDenylist : List String := []
  denylistTimers : List (String × Nat) := []
  deriving Repr, DecidableEq

/-- How the environment (bluetooth stack and peripheral) resolves one
handshake attempt inside `discoverCompanionAppId` (service lines 142-171):

* `connectError msg` — `connectLowEnergyDevice` rejects with message `msg`;
  this happens before the `try` block, so the error propagates to the caller;
* `raceValue v` — the race of `readCompanionAppId` against the disconnect
  promise settles with `v` within 15 s (`none` is a `null`: peripheral
  disconnected, or no companion service/characteristic was found);
* `raceError msg` — the race rejects within 15 s (e.g. a read failure);
* `timeout15` — nothing settles within 15 s, so `promiseWithTimeout` rejects.
  Modelled from the spec for `promiseWithTimeout` (`util/promises`, not under
  `src/`): "a fixed 15-second timeout" whose rejection carries the message
  `timed out` (the message the caller's catch tests for). -/
inductive HandshakeOutcome where
  | connectError (msg : String)
  | raceValue (v : Option String)
  | raceError (msg : String)
  | timeout15
  deriving Repr, DecidableEq

/-- `discoverCompanionAppId` (lines 142-171) as a function of the handshake
outcome: a `connectError` propagates (`Except.error`), while the `try/catch`
around `promiseWithTimeout` catches both a race rejection and the 15-second
timeout rejection, logs, and returns `null` (`Except.ok none`). -/
def discoverCompanionAppId : HandshakeOutcome → Except String (Option String)
  | .connectError msg => .error msg
  | .raceValue v => .ok v
  | .raceError _ => .ok none
  | .timeout15 => .ok none

/-- `handleAppDiscovery(tagId, appId)` (lines 526-533): unless a non-null
cached value would be overwritten by `null`, store `appId` under `tagId` and
drop `tagId` from the denylist. -/
def handleAppDiscovery (s : CompanionState) (tagId : String)
    (appId : Option String) : CompanionState :=
  let oldId := mapGet s.companionAppTags tagId
  if (match oldId with | some (some _) => true | _ => false) && appId.isNone then
    s
  else
    { s with
        companionAppTags := mapSet s.companionAppTags tagId appId,
        companionAppDenylist := setDelete s.companionAppDenylist tagId }

/-- The eligibility gate of `applyCompanionAppOverride` (lines 465-471): the
peripheral is connectable, the manufacturer data starts with
`APPLE_ADVERTISEMENT_ID` (`slice(0, 3).equals(...)`), and is longer than 6
bytes.  An absent buffer short-circuits the optional chain to false. -/
def companionEligible (t : Tag) : Bool :=
  t.peripheral.connectable &&
  (match t.peripheral.manufacturerData with
   | none => false
   | some b => b.take 3 == APPLE_ADVERTISEMENT_ID && decide (b.length > 6))

/-- The cache/denylist guard (lines 472-475): resolution starts only when the
identity is neither cached (resolved or pending) nor denylisted. -/
def companionGuard (s : CompanionState) (t : Tag) : Bool :=
  !mapHas s.companionAppTags t.id && !setHas s.companionAppDenylist t.id

/-- Line 476: mark the identity as pending (`companionAppTags.set(tag.id, null)`)
before the first suspension point. -/
def companionBegin (s : CompanionState) (t : Tag) : CompanionState :=
  { s with companionAppTags := mapSet s.companionAppTags t.id none }

/-- Lines 478-506: the continuation after `await discoverCompanionAppId`.
On a returned value, `handleAppDiscovery`; on a propagated error, denylist the
identity for 3 minutes when the message is `timed out` (scheduling the
`setTimeout` removal after `3 * 60 * 1000` ms), and in every error case delete
the pending cache entry. -/
def companionFinish (s : CompanionState) (t : Tag)
    (outcome : HandshakeOutcome) : CompanionState :=
  match discoverCompanionAppId outcome with
  | .ok appId => handleAppDiscovery s t.id appId
  | .error msg =>
      let s1 :=
        if msg == "timed out" then
          { s with
              companionAppDenylist := setAdd s.companionAppDenylist t.id,
              denylistTimers := s.denylistTimers ++ [(t.id, 3 * 60 * 1000)] }
        else s
      { s1 with companionAppTags := mapDelete s1.companionAppTags t.id }

/-- Lines 510-514: after resolution (or after skipping it), loosely-non-null
cached values override the tag id and set `isApp`. -/
def companionApply (s : CompanionState) (t : Tag) : Tag :=
  match mapGet s.companionAppTags t.id with
  | some (some v) => { t with id := v, isApp := true }
  | _ => t

/-- Result of `applyCompanionAppOverride`: the possibly-overridden tag, the
new companion state, and whether `discoverCompanionAppId` was invoked. -/
structure ApplyResult where
  tag : Tag
  state : CompanionState
  attempted : Bool
  deriving Repr, DecidableEq

/-- `applyCompanionAppOverride(tag)` (lines 460-517), sequentially: when the
tag is eligible and passes the cache/denylist guard, set the pending entry,
run the handshake with the environment-chosen `outcome`, and handle
success/failure; finally apply any cached non-null identity to the tag. -/
def applyCompanionAppOverride (s : CompanionState) (t : Tag)
    (outcome : HandshakeOutcome) : ApplyResult :=
  if companionEligible t && companionGuard s t then
    let s1 := companionFinish (companionBegin s t) t outcome
    { tag := companionApply s1 t, state := s1, attempted := true }
  else
    { tag := companionApply s t, state := s, attempted := false }

/-! ## The throttled dispatcher (service lines 124-131)

`handleDiscovery` wraps the dispatch (`handleNewDistance` plus
`clusterService.publish`) in `_.throttle(fn, updateFrequency * 1000)`.
Lodash's `throttle` is `debounce` with `leading = true`, `trailing = true`,
`maxWait = wait`; the model below follows the documented lodash semantics
(the callback external to this repository's sources), on a monotone
millisecond clock. -/

/-- The internal state of one lodash throttle wrapper. -/
structure ThrottleState (E : Type) where
  lastCallTime : Option Nat := none
  lastInvokeTime : Nat := 0
  timerDeadline : Option Nat := none
  lastArgs : Option E := none

/-- Lodash `shouldInvoke(time)` for throttle (`maxing` with `maxWait = wait`):
first-ever call, a call gap of at least `wait`, or at least `wait` elapsed
since the last invocation. -/
def shouldInvoke (wait : Nat) (st : ThrottleState E) (t : Nat) : Bool :=
  match st.lastCallTime with
  | none => true
  | some lc => decide (wait ≤ t - lc) || decide (wait ≤ t - st.lastInvokeTime)

/-- A call of the throttled function at time `t` with argument `arg`;
returns the new state and the argument invoked now, if any.  On an invoking
call both the leading edge and the maxing branch of lodash set
`lastInvokeTime`, restart the `wait` timer and invoke with the just-recorded
argument; otherwise the argument is only recorded (and a timer is started if
none is running). -/
def throttleCall (wait : Nat) (st : ThrottleState E) (t : Nat) (arg : E) :
    ThrottleState E × Option E :=
  let invoking := shouldInvoke wait st t
  if invoking then
    ({ lastCallTime := some t, lastInvokeTime := t,
       timerDeadline := some (t + wait), lastArgs := none }, some arg)
  else
    match st.timerDeadline with
    | none =>
        ({ st with lastCallTime := some t, lastArgs := some arg,
                   timerDeadline := some (t + wait) }, none)
    | some _ =>
        ({ st with lastCallTime := some t, lastArgs := some arg }, none)

/-- The timer firing at its deadline `t`: lodash `timerExpired` — on the
trailing edge invoke with the pending argument (if any call arrived since the
last invocation), otherwise reschedule for the remaining wait. -/
def throttleTimer (wait : Nat) (st : ThrottleState E) (t : Nat) :
    ThrottleState E × Option E :=
  if shouldInvoke wait st t then
    match st.lastArgs with
    | some a =>
        ({ st with timerDeadline := none, lastInvokeTime := t,
                   lastArgs := none }, some a)
    | none => ({ st with timerDeadline := none }, none)
  else
    let lc := st.lastCallTime.getD 0
    ({ st with
        timerDeadline :=
          some (t + min (wait - (t - lc)) (wait - (t - st.lastInvokeTime))) },
      none)

/-- Drives one throttle wrapper over a time-sorted list of calls, firing due
timers first and flushing the remaining timers afterwards.  `fuel` bounds the
number of processed events (calls and timer firings). -/
def throttleRun (wait : Nat) : Nat → ThrottleState E → List (Nat × E) →
    List (Nat × E)
  | 0, _, _ => []
  | fuel + 1, st, calls =>
      match st.timerDeadline, calls with
      | some d, [] =>
          let (st1, out) := throttleTimer wait st d
          (match out with | some e => [(d, e)] | none => []) ++
            throttleRun wait fuel st1 []
      | none, [] => []
      | some d, (t, a) :: rest =>
          if d ≤ t then
            let (st1, out) := throttleTimer wait st d
            (match out with | some e => [(d, e)] | none => []) ++
              throttleRun wait fuel st1 ((t, a) :: rest)
          else
            let (st1, out) := throttleCall wait st t a
            (match out with | some e => [(t, e)] | none => []) ++
              throttleRun wait fuel st1 rest
      | none, (t, a) :: rest =>
          let (st1, out) := throttleCall wait st t a
          (match out with | some e => [(t, e)] | none => []) ++
            throttleRun wait fuel st1 rest

/-- The invocations (time, dispatched event) a fresh throttle wrapper makes
for a time-sorted list of calls. -/
def runThrottle (wait : Nat) (calls : List (Nat × E)) : List (Nat × E) :=
  throttleRun wait (2 * calls.length + wait + 4) {} calls

/-! ## `NewDistanceEvent` construction (service lines 110-122) -/

/-- `NewDistanceEvent` (`new-distance.event.ts` fields as constructed and read
by the service). -/
structure NewDistanceEvent where
  instanceName : String
  tagId : String
  tagName : String
  peripheralId : String
  isApp : Bool
  rssi : ℚ
  measuredPower : ℚ
  distance : ℚ
  outOfRange : Bool
  batteryLevel : Option ℚ
  deriving Repr, DecidableEq

/-- The event construction inside `handleDiscovery` (lines 111-122):
`outOfRange` is `tag.distance > config.maxDistance`, and the battery level is
carried exactly when the tag classified as an iBeacon. -/
def buildDistanceEvent (instanceName : String) (cfg : BLEConfig) (t : Tag) :
    NewDistanceEvent :=
  { instanceName := instanceName
    tagId := t.id
    tagName := t.name
    peripheralId := t.peripheral.id
    isApp := t.isApp
    rssi := t.rssi
    measuredPower := t.measuredPower
    distance := t.distance
    outOfRange := decide (t.distance > cfg.maxDistance)
    batteryLevel := match t.kind with | .beacon => t.batteryLevel | .plain => none }

/-! ## Entity creation on new distances (service lines 178-208, 308-407) -/

/-- The downstream entities the service registers. -/
inductive EntityKind where
  | presenceSensor (name : String) (timeout : ℚ)
  | deviceTracker (name : String)
  | batterySensor (name : String)
  deriving Repr, DecidableEq

/-- Modelled from the spec: the `EntitiesService` registry
(`entities/entities.service.ts`, not under `src/`) — the downstream entity
sink's registration API, a process-wide id-keyed registry with `has`/`add`. -/
abbrev EntitiesMap := List (String × EntityKind)

/-- `entitiesService.has(id)`. -/
def entitiesHas (es : EntitiesMap) (id : String) : Bool :=
  es.any (fun e => e.1 == id)

/-- `entitiesService.add(entity)`: registers under the entity's id. -/
def entitiesAdd (es : EntitiesMap) (id : String) (k : EntityKind) : EntitiesMap :=
  es ++ [(id, k)]

/-- The observable actions `handleNewDistance` performs against the entity
sink and scheduler, in order. -/
inductive SinkAction where
  | addEntity (id : String) (kind : EntityKind)
  | addInterval (name : String)
  | newMeasurement (sensorId : String) (instanceName : String)
      (rssi : ℚ) (measuredPower : ℚ) (distance : ℚ) (outOfRange : Bool)
      (batteryLevel : Option ℚ)
  deriving Repr, DecidableEq

/-- `createRoomPresenceSensor` (lines 308-365) together with
`createDeviceTracker` (374-378) and `createBatterySensor` (388-407): registers
a device tracker, then — when the event carries a battery level — a battery
sensor, then the (proxied) presence sensor itself, and schedules the
`_timeout_check` interval.  `mkId` models `makeId` (`util/id`, not under
`src/`; the spec does not constrain it, so it stays a parameter). -/
def createRoomPresenceSensor (mkId : String → String) (cfg : BLEConfig)
    (es : EntitiesMap) (sensorId deviceName : String) (hasBattery : Bool) :
    EntitiesMap × List SinkAction :=
  let trackerId := mkId (sensorId ++ "-tracker")
  let trackerKind := EntityKind.deviceTracker (deviceName ++ " Tracker")
  let es1 := entitiesAdd es trackerId trackerKind
  let (es2, batteryActs) :=
    if hasBattery then
      let batteryId := mkId (sensorId ++ "-battery")
      let batteryKind := EntityKind.batterySensor (deviceName ++ " Battery")
      (entitiesAdd es1 batteryId batteryKind,
        [SinkAction.addEntity batteryId batteryKind])
    else (es1, [])
  let sensorKind :=
    EntityKind.presenceSensor (deviceName ++ " Room Presence") cfg.timeout
  let es3 := entitiesAdd es2 sensorId sensorKind
  (es3,
    SinkAction.addEntity trackerId trackerKind :: batteryActs ++
      [SinkAction.addEntity sensorId sensorKind,
       SinkAction.addInterval (sensorId ++ "_timeout_check")])

/-- `handleNewDistance(event)` (lines 178-208): record app-resolved ids in the
companion cache, create downstream entities on the first event for the sensor
id, and apply the measurement. -/
def handleNewDistance (mkId : String → String) (cfg : BLEConfig)
    (cs : CompanionState) (es : EntitiesMap) (event : NewDistanceEvent) :
    CompanionState × EntitiesMap × List SinkAction :=
  let sensorId := mkId ("ble " ++ event.tagId)
  let hasBattery := event.batteryLevel.isSome
  let cs1 :=
    if event.isApp then handleAppDiscovery cs event.peripheralId (some event.tagId)
    else cs
  let measure :=
    SinkAction.newMeasurement sensorId event.instanceName event.rssi
      event.measuredPower event.distance event.outOfRange event.batteryLevel
  if entitiesHas es sensorId then
    (cs1, es, [measure])
  else
    let (es1, acts) :=
      createRoomPresenceSensor mkId cfg es sensorId event.tagName hasBattery
    (cs1, es1, acts ++ [measure])

/-! ## Interleaving model of concurrent discovery callbacks (for §5)

`applyCompanionAppOverride` is synchronous from its eligibility check through
`companionAppTags.set(tag.id, null)` (no `await` in between) and synchronous
again from the return of `discoverCompanionAppId` through the cache update;
JavaScript tasks interleave only at `await`.  A task therefore takes one
atomic step to start (guard and pending mark) and one to finish; denylist
`setTimeout` removals are further atomic steps. -/

/-- Phase of one in-flight `applyCompanionAppOverride` call. -/
inductive TaskPhase where
  | start
  | inHandshake
  | done
  deriving Repr, DecidableEq

/-- One discovery callback's companion-resolution task: its tag, the outcome
the environment will give its handshake, and its current phase. -/
structure CTask where
  tag : Tag
  outcome : HandshakeOutcome
  phase : TaskPhase
  deriving Repr, DecidableEq

/-- The whole system: shared companion state plus the in-flight tasks. -/
structure Sys where
  comp : CompanionState
  tasks : List CTask
  deriving Repr, DecidableEq

/-- Interleaved small-step semantics: any task may run its next atomic
section, and any scheduled denylist removal may fire. -/
inductive CStep : Sys → Sys → Prop where
  | start_run (c : CompanionState) (l1 l2 : List CTask) (t : Tag)
      (o : HandshakeOutcome)
      (hg : (companionEligible t && companionGuard c t) = true) :
      CStep ⟨c, l1 ++ ⟨t, o, .start⟩ :: l2⟩
        ⟨companionBegin c t, l1 ++ ⟨t, o, .inHandshake⟩ :: l2⟩
  | start_skip (c : CompanionState) (l1 l2 : List CTask) (t : Tag)
      (o : HandshakeOutcome)
      (hg : (companionEligible t && companionGuard c t) = false) :
      CStep ⟨c, l1 ++ ⟨t, o, .start⟩ :: l2⟩ ⟨c, l1 ++ ⟨t, o, .done⟩ :: l2⟩
  | finish (c : CompanionState) (l1 l2 : List CTask) (t : Tag)
      (o : HandshakeOutcome) :
      CStep ⟨c, l1 ++ ⟨t, o, .inHandshake⟩ :: l2⟩
        ⟨companionFinish c t o, l1 ++ ⟨t, o, .done⟩ :: l2⟩
  | timer (c : CompanionState) (tasks : List CTask) (u1 u2 : List (String × Nat))
      (x : String) (d : Nat)
      (ht : c.denylistTimers = u1 ++ (x, d) :: u2) :
      CStep ⟨c, tasks⟩
        ⟨{ c with companionAppDenylist := setDelete c.companionAppDenylist x,
                  denylistTimers := u1 ++ u2 }, tasks⟩

/-- Number of tasks currently suspended in a handshake for identity `id`. -/
def handshakeCount (tasks : List CTask) (id : String) : Nat :=
  tasks.countP (fun k => k.phase == TaskPhase.inHandshake && k.tag.id == id)

/-- Does this outcome propagate to the caller as an error reading `timed out`
(the only failure the catch in `applyCompanionAppOverride` denylists on)? -/
def isTimedOutError : HandshakeOutcome → Bool
  | .connectError msg => msg == "timed out"
  | _ => false

/-- The argument a throttle's trailing edge would dispatch after further
calls: the payload of the last call of `rest`, or the already-recorded `la`
when `rest` is empty. -/
def pendingAfter (la : Option E) : List (Nat × E) → Option E
  | [] => la
  | p :: rest => pendingAfter (some p.2) rest

/-- Invariant of the interleaving semantics: per identity at most one
outstanding handshake, and an outstanding handshake implies the pending cache
entry is present. -/
def HandshakeInv (s : Sys) : Prop :=
  ∀ id : String,
    handshakeCount s.tasks id ≤ 1 ∧
    (1 ≤ handshakeCount s.tasks id →
      mapHas s.comp.companionAppTags id = true)

/-! ## Concrete fixtures for witnesses and counterexamples -/

/-- A connectable peripheral advertising the Apple companion marker with a
7-byte manufacturer buffer (eligible for companion resolution). -/
def samplePeripheral : Peripheral :=
  { id := "aa:bb", connectable := true,
    manufacturerData := some [0x4c, 0x00, 0x10, 1, 2, 3, 4], rssi := -70 }

/-- A tag built over `samplePeripheral`. -/
def sampleTag : Tag :=
  { id := "aa:bb", name := "n", rssi := -70, peripheral := samplePeripheral,
    measuredPower := -59, isApp := false, distance := 1, kind := .plain,
    batteryLevel := none }

/-- A 25-byte manufacturer buffer with the exact iBeacon markers. -/
def sampleIBeaconBuffer : Buffer :=
  [0x4c, 0x00, 0x02, 0x15] ++ List.replicate 21 0

/-- A peripheral advertising `sampleIBeaconBuffer`. -/
def beaconPeripheral : Peripheral :=
  { id := "cc:dd", connectable := false,
    manufacturerData := some sampleIBeaconBuffer, rssi := -60 }

/-- A tag sitting exactly at the configured maximum distance. -/
def boundaryTag : Tag := { sampleTag with distance := 5 }

/-- A sample distance event with a battery level, for a not-yet-known device. -/
def sampleEvent : NewDistanceEvent :=
  { instanceName := "node-a", tagId := "aa:bb", tagName := "n",
    peripheralId := "aa:bb", isApp := false, rssi := -70, measuredPower := -59,
    distance := 1, outOfRange := false, batteryLevel := some 90 }

/-! ## Helper lemmas: JS map and set semantics -/

theorem mapHas_eq_isSome_mapGet (m : TagMap) (k : String) :
    mapHas m k = (mapGet m k).isSome := by
  induction m with
  | nil => rfl
  | cons e m ih => by_cases h : e.1 = k <;> simp [mapHas, mapGet, h, ih]

theorem mapGet_replaceKey_self (m : TagMap) (k : String) (v : Option String)
    (h : mapHas m k = true) :
    mapGet (m.map (fun e => if e.1 = k then (k, v) else e)) k = some v := by
  induction m with
  | nil => simp [mapHas] at h
  | cons e m ih =>
      by_cases he : e.1 = k
      · simp [mapGet, he]
      · have h2 : mapHas m k = true := by
          simp only [mapHas, Bool.or_eq_true, beq_iff_eq] at h
          exact h.resolve_left he
        simp [mapGet, he, ih h2]

theorem mapGet_replaceKey_ne (m : TagMap) (k : String) (v : Option String)
    (x : String) (hx : ¬ x = k) :
    mapGet (m.map (fun e => if e.1 = k then (k, v) else e)) x = mapGet m x := by
  have hkx : ¬ k = x := fun hh => hx hh.symm
  induction m with
  | nil => simp [mapGet]
  | cons e m ih =>
      by_cases he : e.1 = k
      · have hex : ¬ e.1 = x := by rw [he]; exact hkx
        simp [mapGet, he, hex, hkx, ih]
      · by_cases hex : e.1 = x <;> simp [mapGet, he, hex, ih, hx]

theorem mapGet_appendSingle (m : TagMap) (k : String) (v : Option String)
    (x : String) :
    mapGet (m ++ [(k, v)]) x =
      match mapGet m x with
      | some w => some w
      | none => if k = x then some v else none := by
  induction m with
  | nil => simp [mapGet]
  | cons e m ih =>
      by_cases hex : e.1 = x <;> simp [mapGet, List.cons_append, hex, ih]

theorem mapGet_mapSet_self (m : TagMap) (k : String) (v : Option String) :
    mapGet (mapSet m k v) k = some v := by
  unfold mapSet
  by_cases h : mapHas m k
  · simp [h, mapGet_replaceKey_self m k v h]
  · have hnone : mapGet m k = none := by
      by_contra hc
      apply h
      rw [mapHas_eq_isSome_mapGet]
      exact Option.isSome_iff_ne_none.2 hc
    simp [h, mapGet_appendSingle, hnone]

theorem mapGet_mapSet_ne (m : TagMap) (k : String) (v : Option String)
    (x : String) (hx : ¬ x = k) :
    mapGet (mapSet m k v) x = mapGet m x := by
  have hkx : ¬ k = x := fun hh => hx hh.symm
  unfold mapSet
  by_cases h : mapHas m k
  · simp [h, mapGet_replaceKey_ne m k v x hx]
  · cases hg : mapGet m x <;> simp [h, mapGet_appendSingle, hg, hkx]

theorem mapGet_mapSet (m : TagMap) (k : String) (v : Option String)
    (x : String) :
    mapGet (mapSet m k v) x = if x = k then some v else mapGet m x := by
  by_cases hx : x = k
  · subst hx; simp [mapGet_mapSet_self]
  · simp [hx, mapGet_mapSet_ne m k v x hx]

theorem mapHas_mapSet (m : TagMap) (k : String) (v : Option String)
    (x : String) :
    mapHas (mapSet m k v) x = if x = k then true else mapHas m x := by
  rw [mapHas_eq_isSome_mapGet, mapGet_mapSet, mapHas_eq_isSome_mapGet]
  by_cases hx : x = k <;> simp [hx]

theorem mapGet_mapDelete (m : TagMap) (k : String) (x : String) :
    mapGet (mapDelete m k) x = if x = k then none else mapGet m x := by
  induction m with
  | nil => by_cases hx : x = k <;> simp [mapGet, mapDelete, hx]
  | cons e m ih =>
      by_cases he : e.1 = k <;> by_cases hex : e.1 = x <;>
        by_cases hx : x = k <;>
          simp_all [mapGet, mapDelete, List.filter_cons]

theorem mapHas_mapDelete (m : TagMap) (k : String) (x : String) :
    mapHas (mapDelete m k) x = if x = k then false else mapHas m x := by
  rw [mapHas_eq_isSome_mapGet, mapGet_mapDelete, mapHas_eq_isSome_mapGet]
  by_cases hx : x = k <;> simp [hx]

theorem setHas_append (s1 s2 : List String) (y : String) :
    setHas (s1 ++ s2) y = (setHas s1 y || setHas s2 y) := by
  induction s1 with
  | nil => simp [setHas]
  | cons z s1 ih => simp [setHas, List.cons_append, ih, Bool.or_assoc]

theorem setHas_setAdd (s : List String) (x y : String) :
    setHas (setAdd s x) y = if y = x then true else setHas s y := by
  unfold setAdd
  by_cases h : setHas s x
  · by_cases hy : y = x
    · subst hy; simp [h]
    · simp [h, hy]
  · rw [if_neg (by simp [h]), setHas_append]
    by_cases hy : y = x
    · subst hy; simp [setHas]
    · have hxy : ¬ x = y := fun hh => hy hh.symm
      simp [hy, setHas, hxy]

theorem setHas_setDelete (s : List String) (x y : String) :
    setHas (setDelete s x) y = if y = x then false else setHas s y := by
  induction s with
  | nil => by_cases hy : y = x <;> simp [setHas, setDelete, hy]
  | cons z s ih =>
      by_cases hz : z = x <;> by_cases hzy : z = y <;>
        by_cases hy : y = x <;>
          simp_all [setHas, setDelete, List.filter_cons]

/-! ## Helper lemmas: throttle behavior inside one window -/

theorem pendingAfter_getLast (la : Option E) (rest : List (Nat × E)) :
    pendingAfter la rest =
      match rest.getLast? with
      | some q => some q.2
      | none => la := by
  induction rest generalizing la with
  | nil => rfl
  | cons p rest ih =>
      have h1 : pendingAfter la (p :: rest) = pendingAfter (some p.2) rest := rfl
      rw [h1, ih]
      cases rest with
      | nil => simp
      | cons q rest2 =>
          rw [List.getLast?_cons_cons]
          cases hq : (q :: rest2).getLast? with
          | none => exact absurd (List.getLast?_eq_none_iff.1 hq) (by simp)
          | some z => rfl

theorem throttleRun_flush (wait fuel t1 prev : Nat) (la : Option E)
    (hw : 0 < wait) :
    throttleRun wait (fuel + 1)
        ⟨some prev, t1, some (t1 + wait), la⟩ [] =
      match la with
      | some a => [(t1 + wait, a)]
      | none => [] := by
  have hinv : shouldInvoke wait
      (⟨some prev, t1, some (t1 + wait), la⟩ : ThrottleState E)
      (t1 + wait) = true := by
    simp [shouldInvoke]
  have hrest : ∀ st : ThrottleState E, st.timerDeadline = none →
      throttleRun wait fuel st [] = [] := by
    intro st hst
    cases fuel with
    | zero => rfl
    | succ f => simp [throttleRun, hst]
  cases la with
  | none =>
      simp only [throttleRun, throttleTimer, hinv, if_true]
      simpa using hrest _ rfl
  | some a =>
      simp only [throttleRun, throttleTimer, hinv, if_true]
      simpa using hrest _ rfl

theorem throttleRun_window (wait t1 : Nat) (hw : 0 < wait)
    (rest : List (Nat × E)) :
    ∀ (fuel prev : Nat) (la : Option E),
      rest.length + 1 ≤ fuel →
      t1 ≤ prev →
      (∀ p ∈ rest, p.1 < t1 + wait) →
      List.Chain (fun a b => a ≤ b) prev (rest.map Prod.fst) →
      throttleRun wait fuel ⟨some prev, t1, some (t1 + wait), la⟩ rest =
        match pendingAfter la rest with
        | some a => [(t1 + wait, a)]
        | none => [] := by
  induction rest with
  | nil =>
      intro fuel prev la hfuel hprev hbound hchain
      cases fuel with
      | zero => omega
      | succ f => exact throttleRun_flush wait f t1 prev la hw
  | cons p rest ih =>
      intro fuel prev la hfuel hprev hbound hchain
      obtain ⟨t, a⟩ := p
      cases fuel with
      | zero => simp at hfuel
      | succ f =>
          rw [List.map_cons, List.chain_cons] at hchain
          obtain ⟨hpt, hchain⟩ := hchain
          have ht : t < t1 + wait := hbound (t, a) (by simp)
          have hnd : ¬ (t1 + wait ≤ t) := by omega
          have hni : shouldInvoke wait
              (⟨some prev, t1, some (t1 + wait), la⟩ : ThrottleState E)
              t = false := by
            simp [shouldInvoke]
            omega
          simp only [throttleRun, hnd, if_false, throttleCall, hni,
            Bool.false_eq_true, List.nil_append]
          have := ih f t (some a) (by simpa using hfuel) (le_trans hprev hpt)
            (fun q hq => hbound q (by simp [hq])) hchain
          simpa [pendingAfter] using this

/-! ## Helper lemmas: handshake counting and invariant preservation -/

theorem handshakeCount_middle (l1 l2 : List CTask) (t : Tag)
    (o : HandshakeOutcome) (ph : TaskPhase) (id : String) :
    handshakeCount (l1 ++ ⟨t, o, ph⟩ :: l2) id =
      handshakeCount l1 id + handshakeCount l2 id +
        (if ph = TaskPhase.inHandshake ∧ t.id = id then 1 else 0) := by
  by_cases h1 : ph = TaskPhase.inHandshake <;> by_cases h2 : t.id = id <;>
    simp [handshakeCount, List.countP_append, List.countP_cons, h1, h2] <;>
      omega

theorem mapHas_handleAppDiscovery_ne (s : CompanionState) (y : String)
    (a : Option String) (x : String) (hx : ¬ x = y) :
    mapHas (handleAppDiscovery s y a).companionAppTags x =
      mapHas s.companionAppTags x := by
  simp only [handleAppDiscovery]
  split
  · rfl
  · simp [mapHas_mapSet, hx]

theorem mapHas_companionFinish_ne (c : CompanionState) (t : Tag)
    (o : HandshakeOutcome) (x : String) (hx : ¬ x = t.id) :
    mapHas (companionFinish c t o).companionAppTags x =
      mapHas c.companionAppTags x := by
  cases o with
  | connectError msg =>
      simp only [companionFinish, discoverCompanionAppId]
      split <;> simp [mapHas_mapDelete, hx]
  | raceValue v =>
      simpa [companionFinish, discoverCompanionAppId] using
        mapHas_handleAppDiscovery_ne c t.id v x hx
  | raceError msg =>
      simpa [companionFinish, discoverCompanionAppId] using
        mapHas_handleAppDiscovery_ne c t.id none x hx
  | timeout15 =>
      simpa [companionFinish, discoverCompanionAppId] using
        mapHas_handleAppDiscovery_ne c t.id none x hx

theorem handshakeInv_init (s : Sys)
    (h : ∀ k ∈ s.tasks, k.phase = TaskPhase.start) : HandshakeInv s := by
  intro id
  have hz : handshakeCount s.tasks id = 0 := by
    refine List.countP_eq_zero.2 ?_
    intro k hk
    simp [h k hk]
  simp [hz]

theorem handshakeInv_step {s s' : Sys} (hs : HandshakeInv s)
    (h : CStep s s') : HandshakeInv s' := by
  cases h with
  | start_run c l1 l2 t o hg =>
      intro id
      have hmem := hs id
      rw [handshakeCount_middle] at hmem ⊢
      simp only [Bool.and_eq_true] at hg
      have hguard : mapHas c.companionAppTags t.id = false := by
        have := hg.2
        unfold companionGuard at this
        simp only [Bool.and_eq_true, Bool.not_eq_true'] at this
        exact this.1
      by_cases hid : t.id = id
      · subst hid
        have hzero : handshakeCount l1 t.id + handshakeCount l2 t.id = 0 := by
          by_contra hc
        -- 1 ≤ count would force mapHas = true, contradicting the guard
          have h1 : 1 ≤ handshakeCount l1 t.id + handshakeCount l2 t.id +
              (if TaskPhase.start = TaskPhase.inHandshake ∧ t.id = t.id
                then 1 else 0) := by
            simp
            omega
          have := hmem.2 h1
          rw [hguard] at this
          cases this
        constructor
        · simp [hzero]
        · intro h1
          simp [companionBegin, mapHas_mapSet]
      · constructor
        · simpa [hid] using hmem.1
        · intro h1
          have : mapHas c.companionAppTags id = true := by
            apply hmem.2
            simpa [hid] using h1
          have hxne : ¬ id = t.id := fun hh => hid hh.symm
          simpa [companionBegin, mapHas_mapSet, hxne] using this
  | start_skip c l1 l2 t o hg =>
      intro id
      have hmem := hs id
      rw [handshakeCount_middle] at hmem ⊢
      simpa using hmem
  | finish c l1 l2 t o =>
      intro id
      have hmem := hs id
      rw [handshakeCount_middle] at hmem ⊢
      by_cases hid : t.id = id
      · subst hid
        have hcnt := hmem.1
        simp at hcnt ⊢
        constructor
        · omega
        · intro h1
          omega
      · constructor
        · simpa [hid] using hmem.1
        · intro h1
          have : mapHas c.companionAppTags id = true := by
            apply hmem.2
            simpa [hid] using h1
          have hxne : ¬ id = t.id := fun hh => hid hh.symm
          rw [mapHas_companionFinish_ne c t o id hxne]
          exact this
  | timer c tasks u1 u2 x d ht =>
      intro id
      exact hs id

/-! ## Helper lemmas: companion-resolution unfoldings -/

theorem applyCompanionAppOverride_attempted (s : CompanionState) (t : Tag)
    (o : HandshakeOutcome) (he : companionEligible t = true)
    (hg : companionGuard s t = true) :
    applyCompanionAppOverride s t o =
      { tag := companionApply (companionFinish (companionBegin s t) t o) t,
        state := companionFinish (companionBegin s t) t o,
        attempted := true } := by
  simp [applyCompanionAppOverride, he, hg]

theorem applyCompanionAppOverride_skipped (s : CompanionState) (t : Tag)
    (o : HandshakeOutcome)
    (h : (companionEligible t && companionGuard s t) = false) :
    applyCompanionAppOverride s t o =
      { tag := companionApply s t, state := s, attempted := false } := by
  simp [applyCompanionAppOverride, h]

theorem companionGuard_parts {s : CompanionState} {t : Tag}
    (hg : companionGuard s t = true) :
    mapHas s.companionAppTags t.id = false ∧
      setHas s.companionAppDenylist t.id = false := by
  unfold companionGuard at hg
  simp only [Bool.and_eq_true, Bool.not_eq_true'] at hg
  exact hg

theorem companionEligible_iff (t : Tag) :
    companionEligible t = true ↔
      t.peripheral.connectable = true ∧
      ∃ b, t.peripheral.manufacturerData = some b ∧
        b.take 3 = APPLE_ADVERTISEMENT_ID ∧ 6 < b.length := by
  unfold companionEligible
  cases hmd : t.peripheral.manufacturerData with
  | none => simp [hmd]
  | some b => simp [hmd, Bool.and_eq_true, and_assoc]

theorem mapGet_handleAppDiscovery_ne (s : CompanionState) (y : String)
    (a : Option String) (x : String) (hx : ¬ x = y) :
    mapGet (handleAppDiscovery s y a).companionAppTags x =
      mapGet s.companionAppTags x := by
  simp only [handleAppDiscovery]
  split
  · rfl
  · simp [mapGet_mapSet, hx]

theorem mapGet_companionFinish_ne (c : CompanionState) (t : Tag)
    (o : HandshakeOutcome) (x : String) (hx : ¬ x = t.id) :
    mapGet (companionFinish c t o).companionAppTags x =
      mapGet c.companionAppTags x := by
  cases o with
  | connectError msg =>
      simp only [companionFinish, discoverCompanionAppId]
      split <;> simp [mapGet_mapDelete, hx]
  | raceValue v =>
      simpa [companionFinish, discoverCompanionAppId] using
        mapGet_handleAppDiscovery_ne c t.id v x hx
  | raceError msg =>
      simpa [companionFinish, discoverCompanionAppId] using
        mapGet_handleAppDiscovery_ne c t.id none x hx
  | timeout15 =>
      simpa [companionFinish, discoverCompanionAppId] using
        mapGet_handleAppDiscovery_ne c t.id none x hx

theorem setHas_handleAppDiscovery_denylist (s : CompanionState) (y : String)
    (a : Option String) (x : String) :
    setHas (handleAppDiscovery s y a).companionAppDenylist x = true →
      setHas s.companionAppDenylist x = true := by
  simp only [handleAppDiscovery]
  split
  · exact fun h => h
  · simp only [setHas_setDelete]
    split
    · intro h
      cases h
    · exact fun h => h

/-! ## Claim C1: timeout handling and denylisting -/

/-- C1 counterexample: for an eligible tag against an empty companion state,
the 15-second handshake timeout does NOT denylist the identity and does NOT
remove the pending cache entry — `discoverCompanionAppId` catches the timeout
rejection itself and returns null, so the identity is cached as a permanent
null resolution instead. -/
theorem companionTimeoutDenylist_cex :
    (applyCompanionAppOverride {} sampleTag
        HandshakeOutcome.timeout15).state.companionAppDenylist = [] ∧
    mapGet (applyCompanionAppOverride {} sampleTag
        HandshakeOutcome.timeout15).state.companionAppTags "aa:bb" =
      some none :=
  ⟨rfl, rfl⟩

/-- C1 (amended): denylisting happens exactly for a resolution attempt whose
error PROPAGATES out of `discoverCompanionAppId` with message `timed out`
(the connect-stage timeout): then the identity is denylisted, a removal is
scheduled after 3 minutes (180000 ms), the pending cache entry is deleted, and
once the scheduled removal fires the identity passes the guard again.  The
15-second handshake timeout is caught inside `discoverCompanionAppId` and
cached as a permanent null resolution, without denylisting.  No outcome other
than a propagated `timed out` error ever adds an identity to the denylist. -/
theorem companionTimeoutDenylist (s : CompanionState) (t : Tag)
    (he : companionEligible t = true) (hg : companionGuard s t = true) :
    (setHas (applyCompanionAppOverride s t
        (.connectError "timed out")).state.companionAppDenylist t.id = true ∧
      (t.id, 3 * 60 * 1000) ∈ (applyCompanionAppOverride s t
        (.connectError "timed out")).state.denylistTimers ∧
      mapHas (applyCompanionAppOverride s t
        (.connectError "timed out")).state.companionAppTags t.id = false ∧
      companionGuard
        { (applyCompanionAppOverride s t (.connectError "timed out")).state
            with
          companionAppDenylist :=
            setDelete (applyCompanionAppOverride s t
              (.connectError "timed out")).state.companionAppDenylist t.id }
        t = true) ∧
    (mapGet (applyCompanionAppOverride s t
        HandshakeOutcome.timeout15).state.companionAppTags t.id = some none ∧
      setHas (applyCompanionAppOverride s t
        HandshakeOutcome.timeout15).state.companionAppDenylist t.id =
          false) ∧
    (∀ o : HandshakeOutcome, isTimedOutError o = false → ∀ x : String,
      setHas (applyCompanionAppOverride s t o).state.companionAppDenylist x =
          true →
        setHas s.companionAppDenylist x = true) := by
  obtain ⟨hgt, hgd⟩ := companionGuard_parts hg
  refine ⟨?_, ?_, ?_⟩
  · rw [applyCompanionAppOverride_attempted s t _ he hg]
    simp only [companionFinish, companionBegin, discoverCompanionAppId]
    refine ⟨?_, ?_, ?_, ?_⟩
    · simp [setHas_setAdd]
    · simp
    · simp [mapHas_mapDelete]
    · simp [companionGuard, mapHas_mapDelete, setHas_setDelete]
  · rw [applyCompanionAppOverride_attempted s t _ he hg]
    simp only [companionFinish, companionBegin, discoverCompanionAppId,
      handleAppDiscovery]
    constructor
    · simp [mapGet_mapSet_self, mapGet_mapSet, setHas_setDelete]
    · simp [mapGet_mapSet_self, mapGet_mapSet, setHas_setDelete, hgd]
  · intro o ho x hx
    rw [applyCompanionAppOverride_attempted s t o he hg] at hx
    cases o with
    | connectError msg =>
        have hmsg : (msg == "timed out") = false := by
          simpa [isTimedOutError] using ho
        simpa [companionFinish, companionBegin, discoverCompanionAppId,
          hmsg] using hx
    | raceValue v =>
        have hx2 : setHas (handleAppDiscovery (companionBegin s t) t.id
            v).companionAppDenylist x = true := by
          simpa [companionFinish, discoverCompanionAppId] using hx
        exact setHas_handleAppDiscovery_denylist (companionBegin s t) t.id v x hx2
    | raceError msg =>
        have hx2 : setHas (handleAppDiscovery (companionBegin s t) t.id
            none).companionAppDenylist x = true := by
          simpa [companionFinish, discoverCompanionAppId] using hx
        exact setHas_handleAppDiscovery_denylist (companionBegin s t) t.id none x hx2
    | timeout15 =>
        have hx2 : setHas (handleAppDiscovery (companionBegin s t) t.id
            none).companionAppDenylist x = true := by
          simpa [companionFinish, discoverCompanionAppId] using hx
        exact setHas_handleAppDiscovery_denylist (companionBegin s t) t.id none x hx2

/-- C1 witness: concrete eligible tag and empty state, with a propagated
connect timeout. -/
theorem companionTimeoutDenylist_witness :
    setHas (applyCompanionAppOverride {} sampleTag
      (.connectError "timed out")).state.companionAppDenylist "aa:bb" =
        true :=
  (companionTimeoutDenylist {} sampleTag rfl rfl).1.1

/-! ## Claim C2: companion cache entry lifecycle -/

/-- C2 counterexample: a resolution attempt that fails WITHOUT timing out (a
read failure inside the handshake) does not remove the cache entry — the
identity stays cached as null, so the next advertisement does NOT trigger a
new resolution attempt. -/
theorem companionCacheLifecycle_cex :
    mapGet (applyCompanionAppOverride {} sampleTag
        (.raceError "read failed")).state.companionAppTags "aa:bb" =
      some none ∧
    (applyCompanionAppOverride
        (applyCompanionAppOverride {} sampleTag
          (.raceError "read failed")).state
        sampleTag (.raceValue (some "app-1"))).attempted = false :=
  ⟨rfl, rfl⟩

/-- C2 (amended): the entry is created pending on the first qualifying
advertisement; it is removed exactly when the attempt fails with an error that
PROPAGATES out of `discoverCompanionAppId` (a connect-stage failure) — and
then, unless the error read `timed out`, the identity passes the guard again
on the next advertisement; failures caught inside the handshake (read errors
and the 15-second timeout) and null reads leave a permanent null entry; a
successful non-null resolution is cached, and a resolved non-null entry is
never removed or nulled by later cache updates or override calls. -/
theorem companionCacheLifecycle (s : CompanionState) (t : Tag)
    (he : companionEligible t = true) (hg : companionGuard s t = true) :
    mapGet (companionBegin s t).companionAppTags t.id = some none ∧
    (∀ msg, mapHas (applyCompanionAppOverride s t
        (.connectError msg)).state.companionAppTags t.id = false) ∧
    (∀ msg, ¬ msg = "timed out" →
      companionGuard (applyCompanionAppOverride s t
        (.connectError msg)).state t = true) ∧
    (∀ msg, mapGet (applyCompanionAppOverride s t
        (.raceError msg)).state.companionAppTags t.id = some none) ∧
    mapGet (applyCompanionAppOverride s t
        HandshakeOutcome.timeout15).state.companionAppTags t.id = some none ∧
    (mapGet (applyCompanionAppOverride s t
        (.raceValue none)).state.companionAppTags t.id = some none ∧
      companionGuard (applyCompanionAppOverride s t
        (.raceValue none)).state t = false) ∧
    (∀ v, mapGet (applyCompanionAppOverride s t
        (.raceValue (some v))).state.companionAppTags t.id =
      some (some v)) ∧
    (∀ s2 x v y a, mapGet s2.companionAppTags x = some (some v) →
      ∃ w, mapGet (handleAppDiscovery s2 y a).companionAppTags x =
        some (some w)) ∧
    (∀ s2 x v t2 o, mapGet s2.companionAppTags x = some (some v) →
      mapGet (applyCompanionAppOverride s2 t2 o).state.companionAppTags x =
        some (some v)) := by
  obtain ⟨hgt, hgd⟩ := companionGuard_parts hg
  refine ⟨?_, ?_, ?_, ?_, ?_, ?_, ?_, ?_, ?_⟩
  · simp [companionBegin, mapGet_mapSet_self]
  · intro msg
    rw [applyCompanionAppOverride_attempted s t _ he hg]
    simp only [companionFinish, companionBegin, discoverCompanionAppId]
    split <;> simp [mapHas_mapDelete]
  · intro msg hmsg
    rw [applyCompanionAppOverride_attempted s t _ he hg]
    have hbeq : (msg == "timed out") = false := by
      simpa using hmsg
    simp only [companionFinish, companionBegin, discoverCompanionAppId,
      hbeq, if_false]
    simp [companionGuard, mapHas_mapDelete, hgd]
  · intro msg
    rw [applyCompanionAppOverride_attempted s t _ he hg]
    simp [companionFinish, companionBegin, discoverCompanionAppId,
      handleAppDiscovery, mapGet_mapSet_self]
  · rw [applyCompanionAppOverride_attempted s t _ he hg]
    simp [companionFinish, companionBegin, discoverCompanionAppId,
      handleAppDiscovery, mapGet_mapSet_self]
  · rw [applyCompanionAppOverride_attempted s t _ he hg]
    constructor
    · simp [companionFinish, companionBegin, discoverCompanionAppId,
        handleAppDiscovery, mapGet_mapSet_self]
    · simp [companionFinish, companionBegin, discoverCompanionAppId,
        handleAppDiscovery, companionGuard, mapHas_mapSet,
        mapGet_mapSet_self]
  · intro v
    rw [applyCompanionAppOverride_attempted s t _ he hg]
    simp [companionFinish, companionBegin, discoverCompanionAppId,
      handleAppDiscovery, mapGet_mapSet_self]
  · intro s2 x v y a hx
    by_cases hxy : x = y
    · subst hxy
      simp only [handleAppDiscovery, hx]
      cases a with
      | none => exact ⟨v, by simp [hx]⟩
      | some w => exact ⟨w, by simp [mapGet_mapSet_self]⟩
    · exact ⟨v, by rw [mapGet_handleAppDiscovery_ne s2 y a x hxy]; exact hx⟩
  · intro s2 x v t2 o hx
    cases hb : (companionEligible t2 && companionGuard s2 t2) with
    | false =>
        rw [applyCompanionAppOverride_skipped s2 t2 o hb]
        exact hx
    | true =>
        obtain ⟨he2, hg2⟩ : companionEligible t2 = true ∧
            companionGuard s2 t2 = true := by
          simpa [Bool.and_eq_true] using hb
        have hxne : ¬ x = t2.id := by
          intro hxe
          have := (companionGuard_parts hg2).1
          rw [← hxe] at this
          rw [mapHas_eq_isSome_mapGet, hx] at this
          cases this
        rw [applyCompanionAppOverride_attempted s2 t2 o he2 hg2]
        rw [mapGet_companionFinish_ne _ t2 o x hxne]
        simp only [companionBegin]
        rw [mapGet_mapSet_ne _ _ _ _ hxne]
        exact hx

/-- C2 witness: concrete eligible tag, empty state, propagated connect
failure (non-timeout): the pending entry is removed. -/
theorem companionCacheLifecycle_witness :
    mapHas (applyCompanionAppOverride {} sampleTag
      (.connectError "boom")).state.companionAppTags "aa:bb" = false :=
  (companionCacheLifecycle {} sampleTag rfl rfl).2.1 "boom"

/-! ## Claim C6: no downgrade of resolved mappings -/

/-- C6: when the cache maps `tagId` to a non-null identity and the new
`appId` is null, `handleAppDiscovery` leaves the state entirely unchanged. -/
theorem handleAppDiscoveryNoDowngrade (s : CompanionState) (tagId : String)
    (v : String) (h : mapGet s.companionAppTags tagId = some (some v)) :
    handleAppDiscovery s tagId none = s := by
  simp [handleAppDiscovery, h]

/-- C6 witness: a concrete resolved entry survives a null update. -/
theorem handleAppDiscoveryNoDowngrade_witness :
    handleAppDiscovery
        { companionAppTags := [("aa:bb", some "app-1")] } "aa:bb" none =
      { companionAppTags := [("aa:bb", some "app-1")] } :=
  handleAppDiscoveryNoDowngrade
    { companionAppTags := [("aa:bb", some "app-1")] } "aa:bb" "app-1" rfl

/-! ## Claim C7: companion gate and cached-identity application -/

/-- C7: a handshake is attempted only for a connectable peripheral whose
manufacturer data starts with the Apple marker and exceeds 6 bytes, with the
identity neither cached nor denylisted; when the identity is cached or
denylisted no handshake starts, the state is unchanged, and a non-null cached
identity replaces the tag's id, marking it app-resolved. -/
theorem companionGate (s : CompanionState) (t : Tag) (o : HandshakeOutcome) :
    ((applyCompanionAppOverride s t o).attempted = true →
      t.peripheral.connectable = true ∧
      (∃ b, t.peripheral.manufacturerData = some b ∧
        b.take 3 = APPLE_ADVERTISEMENT_ID ∧ 6 < b.length) ∧
      mapHas s.companionAppTags t.id = false ∧
      setHas s.companionAppDenylist t.id = false) ∧
    (mapHas s.companionAppTags t.id = true ∨
        setHas s.companionAppDenylist t.id = true →
      (applyCompanionAppOverride s t o).attempted = false ∧
      (applyCompanionAppOverride s t o).state = s ∧
      (∀ v, mapGet s.companionAppTags t.id = some (some v) →
        (applyCompanionAppOverride s t o).tag =
          { t with id := v, isApp := true })) := by
  constructor
  · intro hatt
    cases hb : (companionEligible t && companionGuard s t) with
    | false =>
        rw [applyCompanionAppOverride_skipped s t o hb] at hatt
        cases hatt
    | true =>
        obtain ⟨he, hg⟩ : companionEligible t = true ∧
            companionGuard s t = true := by
          simpa [Bool.and_eq_true] using hb
        obtain ⟨h1, h2⟩ := (companionEligible_iff t).1 he
        obtain ⟨h3, h4⟩ := companionGuard_parts hg
        exact ⟨h1, h2, h3, h4⟩
  · intro hcd
    have hb : (companionEligible t && companionGuard s t) = false := by
      have hgf : companionGuard s t = false := by
        unfold companionGuard
        rcases hcd with hc | hd
        · simp [hc]
        · simp [hd]
      simp [hgf]
    rw [applyCompanionAppOverride_skipped s t o hb]
    refine ⟨rfl, rfl, ?_⟩
    intro v hv
    simp [companionApply, hv]

/-- C7 witness: with a resolved cache entry the override applies the cached
identity without attempting a handshake. -/
theorem companionGate_witness :
    (applyCompanionAppOverride
        { companionAppTags := [("aa:bb", some "app-1")] } sampleTag
        HandshakeOutcome.timeout15).tag =
      { sampleTag with id := "app-1", isApp := true } :=
  ((companionGate { companionAppTags := [("aa:bb", some "app-1")] }
      sampleTag HandshakeOutcome.timeout15).2 (Or.inl rfl)).2.2 "app-1" rfl

/-! ## Claim C3: allow/deny decision rule -/

theorem onDeny_ne_nil (deny : List String) (P : String → Prop)
    (h : ∃ x ∈ deny, P x) : deny ≠ [] := by
  obtain ⟨x, hx, _⟩ := h
  intro hD
  rw [hD] at hx
  exact absurd hx (List.not_mem_nil x)

theorem isAllowlistEnabled_iff (cfg : BLEConfig) :
    isAllowlistEnabled cfg = true ↔
      cfg.allowlist.getD [] ++ cfg.whitelist.getD [] ≠ [] := by
  by_cases h1 : cfg.allowlist.getD [] = [] <;>
    by_cases h2 : cfg.whitelist.getD [] = [] <;>
      simp [isAllowlistEnabled, h1, h2, List.length_pos, List.append_eq_nil]

theorem isDenylistEnabled_iff (cfg : BLEConfig) :
    isDenylistEnabled cfg = true ↔
      cfg.denylist.getD [] ++ cfg.blacklist.getD [] ≠ [] := by
  by_cases h1 : cfg.denylist.getD [] = [] <;>
    by_cases h2 : cfg.blacklist.getD [] = [] <;>
      simp [isDenylistEnabled, h1, h2, List.length_pos, List.append_eq_nil]

theorem isOnAllowlist_iff (rmatch : String → String → Bool) (cfg : BLEConfig)
    (id : String) :
    isOnAllowlist rmatch cfg id = true ↔
      (cfg.allowlist.getD [] ++ cfg.whitelist.getD [] ≠ [] ∧
        if (cfg.allowlistRegex || cfg.whitelistRegex) = true then
          ∃ r ∈ cfg.allowlist.getD [] ++ cfg.whitelist.getD [],
            rmatch id r = true
        else
          ∃ x ∈ cfg.allowlist.getD [] ++ cfg.whitelist.getD [],
            strLower x = strLower id) := by
  unfold isOnAllowlist
  by_cases hA : cfg.allowlist.getD [] ++ cfg.whitelist.getD [] = []
  · simp [hA]
  · rw [if_neg (by simp only [beq_iff_eq, List.length_eq_zero]; exact hA)]
    by_cases hr : (cfg.allowlistRegex || cfg.whitelistRegex) = true
    · rw [if_pos hr, if_pos hr]
      simp only [List.any_eq_true]
      constructor
      · rintro ⟨r, hrA, hrm⟩
        exact ⟨hA, r, hrA, hrm⟩
      · rintro ⟨-, r, hrA, hrm⟩
        exact ⟨r, hrA, hrm⟩
    · rw [if_neg hr, if_neg hr, List.contains_eq_any_beq]
      simp only [List.any_eq_true, List.mem_map]
      constructor
      · rintro ⟨y, ⟨x, hx, rfl⟩, hy⟩
        exact ⟨hA, x, hx, (beq_iff_eq.1 hy).symm⟩
      · rintro ⟨-, x, hx, he⟩
        exact ⟨strLower x, ⟨x, hx, rfl⟩, beq_iff_eq.2 he.symm⟩

theorem isOnDenylist_iff (rmatch : String → String → Bool) (cfg : BLEConfig)
    (id : String) :
    isOnDenylist rmatch cfg id = true ↔
      (cfg.denylist.getD [] ++ cfg.blacklist.getD [] ≠ [] ∧
        if (cfg.denylistRegex || cfg.blacklistRegex) = true then
          ∃ r ∈ cfg.denylist.getD [] ++ cfg.blacklist.getD [],
            rmatch id r = true
        else
          ∃ x ∈ cfg.denylist.getD [] ++ cfg.blacklist.getD [],
            strLower x = strLower id) := by
  unfold isOnDenylist
  by_cases hD : cfg.denylist.getD [] ++ cfg.blacklist.getD [] = []
  · simp [hD]
  · rw [if_neg (by simp only [beq_iff_eq, List.length_eq_zero]; exact hD)]
    by_cases hr : (cfg.denylistRegex || cfg.blacklistRegex) = true
    · rw [if_pos hr, if_pos hr]
      simp only [List.any_eq_true]
      constructor
      · rintro ⟨r, hrD, hrm⟩
        exact ⟨hD, r, hrD, hrm⟩
      · rintro ⟨-, r, hrD, hrm⟩
        exact ⟨r, hrD, hrm⟩
    · rw [if_neg hr, if_neg hr, List.contains_eq_any_beq]
      simp only [List.any_eq_true, List.mem_map]
      constructor
      · rintro ⟨y, ⟨x, hx, rfl⟩, hy⟩
        exact ⟨hD, x, hx, (beq_iff_eq.1 hy).symm⟩
      · rintro ⟨-, x, hx, he⟩
        exact ⟨strLower x, ⟨x, hx, rfl⟩, beq_iff_eq.2 he.symm⟩

/-- C3: a device is processed further iff (it matches a non-empty allowlist,
or the allowlist is empty and the denylist is non-empty) and it does not match
the denylist (with literal matching case-insensitive); when both lists are
empty nothing passes; a denylist match always excludes. -/
theorem filterDecision (rmatch : String → String → Bool) (cfg : BLEConfig)
    (id : String) :
    (passesFilter rmatch cfg id = true ↔ specPassesFilter rmatch cfg id) ∧
    (cfg.allowlist.getD [] ++ cfg.whitelist.getD [] = [] →
      cfg.denylist.getD [] ++ cfg.blacklist.getD [] = [] →
      passesFilter rmatch cfg id = false) ∧
    (isOnDenylist rmatch cfg id = true →
      passesFilter rmatch cfg id = false) := by
  refine ⟨?_, ?_, ?_⟩
  · have hAiff := isOnAllowlist_iff rmatch cfg id
    have hAE := isAllowlistEnabled_iff cfg
    have hDE := isDenylistEnabled_iff cfg
    have hDiff := isOnDenylist_iff rmatch cfg id
    have hae0 : isAllowlistEnabled cfg = false ↔
        cfg.allowlist.getD [] ++ cfg.whitelist.getD [] = [] := by
      rw [← Bool.not_eq_true, hAE, not_not]
    have hd0 : isOnDenylist rmatch cfg id = false ↔
        ¬ (cfg.denylist.getD [] ++ cfg.blacklist.getD [] ≠ [] ∧
          if (cfg.denylistRegex || cfg.blacklistRegex) = true then
            ∃ r ∈ cfg.denylist.getD [] ++ cfg.blacklist.getD [],
              rmatch id r = true
          else
            ∃ x ∈ cfg.denylist.getD [] ++ cfg.blacklist.getD [],
              strLower x = strLower id) := by
      rw [← Bool.not_eq_true, hDiff]
    have hne : (if (cfg.denylistRegex || cfg.blacklistRegex) = true then
          ∃ r ∈ cfg.denylist.getD [] ++ cfg.blacklist.getD [],
            rmatch id r = true
        else
          ∃ x ∈ cfg.denylist.getD [] ++ cfg.blacklist.getD [],
            strLower x = strLower id) →
        cfg.denylist.getD [] ++ cfg.blacklist.getD [] ≠ [] := by
      by_cases hc : (cfg.denylistRegex || cfg.blacklistRegex) = true
      · rw [if_pos hc]
        exact onDeny_ne_nil _ _
      · rw [if_neg hc]
        exact onDeny_ne_nil _ _
    unfold passesFilter specPassesFilter
    simp only [Bool.and_eq_true, Bool.or_eq_true, Bool.not_eq_true'] at hAiff hae0 hd0 hne ⊢
    rw [hAiff, hae0, hDE, hd0]
    constructor
    · rintro ⟨h1, h2⟩
      exact ⟨h1, fun hod => h2 ⟨hne hod, hod⟩⟩
    · rintro ⟨h1, h2⟩
      exact ⟨h1, fun hc => h2 hc.2⟩
  · intro hA hD
    obtain ⟨ha1, ha2⟩ := List.append_eq_nil.1 hA
    obtain ⟨hd1, hd2⟩ := List.append_eq_nil.1 hD
    simp [passesFilter, isOnAllowlist, isOnDenylist, isAllowlistEnabled,
      isDenylistEnabled, ha1, ha2, hd1, hd2, hA, hD]
  · intro h
    simp [passesFilter, h]

/-- C3 witness: a concrete configuration with a matching non-empty allowlist
(case-insensitively) and a non-matching denylist passes the device, and the
all-empty configuration passes nothing. -/
theorem filterDecision_witness :
    passesFilter (fun _ _ => false)
      { allowlist := some ["AA:BB"], denylist := some ["cc:dd"] } "aa:bb" =
        true ∧
      passesFilter (fun _ _ => false) { : BLEConfig } "aa:bb" = false := by
  constructor
  · refine (filterDecision (fun _ _ => false)
      { allowlist := some ["AA:BB"], denylist := some ["cc:dd"] }
        "aa:bb").1.2 ?_
    refine ⟨Or.inl ⟨by simp, ?_⟩, ?_⟩
    · rw [if_neg (by simp)]
      exact ⟨"AA:BB", by simp, by decide⟩
    · rw [if_neg (by simp)]
      rintro ⟨x, hx, hs⟩
      simp at hx
      subst hx
      revert hs
      decide
  · exact (filterDecision (fun _ _ => false) { : BLEConfig } "aa:bb").2.1
      rfl rfl

/-! ## Claim C5: iBeacon classification -/

/-- C5 counterexample: with `processIBeacon` disabled, a manufacturer buffer
carrying all the iBeacon markers (25 bytes, `0x004c` LE company id, type
`0x02`, length `0x15`) still classifies as a generic `Tag`, not a Beacon. -/
theorem classifierIBeacon_cex :
    isIBeacon (some sampleIBeaconBuffer) = true ∧
    createTagKind { processIBeacon := false } beaconPeripheral =
      TagKind.plain := by
  exact ⟨by decide, rfl⟩

/-- C5 (amended): when iBeacon processing is enabled, classification yields a
Beacon iff the manufacturer buffer is present, at least 25 bytes long, and
carries company id `0x004c` (LE) at offset 0, type `0x02` at offset 2 and
length `0x15` at offset 3; any buffer failing the markers (or absent) yields a
generic Tag under every configuration. -/
theorem classifierIBeacon (cfg : BLEConfig) (p : Peripheral) :
    (cfg.processIBeacon = true →
      (createTagKind cfg p = TagKind.beacon ↔
        ∃ b, p.manufacturerData = some b ∧ 25 ≤ b.length ∧
          readUInt16LE b 0 = 0x004c ∧ readUInt8 b 2 = 0x02 ∧
          readUInt8 b 3 = 0x15)) ∧
    (isIBeacon p.manufacturerData = false →
      createTagKind cfg p = TagKind.plain) := by
  constructor
  · intro hp
    cases hmd : p.manufacturerData with
    | none => simp [createTagKind, hp, isIBeacon, hmd]
    | some b =>
        by_cases h1 : 25 ≤ b.length <;>
          by_cases h2 : readUInt16LE b 0 = 0x004c <;>
            by_cases h3 : readUInt8 b 2 = 0x02 <;>
              by_cases h4 : readUInt8 b 3 = 0x15 <;>
                simp [createTagKind, hp, isIBeacon, hmd, h1, h2, h3, h4]
  · intro hf
    simp [createTagKind, hf]

/-- C5 witness: with processing enabled, the concrete marker buffer
classifies as a Beacon. -/
theorem classifierIBeacon_witness :
    createTagKind { processIBeacon := true } beaconPeripheral =
      TagKind.beacon :=
  ((classifierIBeacon { processIBeacon := true } beaconPeripheral).1 rfl).2
    ⟨sampleIBeaconBuffer, rfl, by decide, by decide, by decide, by decide⟩

/-! ## Claim C10: strict out-of-range comparison -/

/-- C10: the dispatched event's `outOfRange` flag is true iff the tag's
distance strictly exceeds the configured `maxDistance`; equality is reported
as in range. -/
theorem outOfRangeStrict (name : String) (cfg : BLEConfig) (t : Tag) :
    ((buildDistanceEvent name cfg t).outOfRange = true ↔
      cfg.maxDistance < t.distance) ∧
    (t.distance = cfg.maxDistance →
      (buildDistanceEvent name cfg t).outOfRange = false) := by
  constructor
  · simp [buildDistanceEvent]
  · intro h
    simp [buildDistanceEvent, h]

/-- C10 witness: a tag at exactly the maximum distance is reported in
range. -/
theorem outOfRangeStrict_witness :
    (buildDistanceEvent "node-a" { maxDistance := 5 } boundaryTag).outOfRange =
      false :=
  (outOfRangeStrict "node-a" { maxDistance := 5 } boundaryTag).2 rfl

theorem throttleRun_firstStep (wait fuel t1 : Nat) (e1 : E)
    (rest : List (Nat × E)) :
    throttleRun wait (fuel + 1) ({} : ThrottleState E) ((t1, e1) :: rest) =
      (t1, e1) ::
        throttleRun wait fuel ⟨some t1, t1, some (t1 + wait), none⟩ rest := by
  simp [throttleRun, throttleCall, shouldInvoke]

/-! ## Claim C4: throttled dispatch within one window -/

/-- C4 counterexample: two observations inside one 2000 ms throttle window
produce TWO dispatched events, not one — the leading edge fires immediately
with the FIRST observation's values, the trailing edge at the window's end
with the most recent ones. -/
theorem throttleSingleDispatch_cex :
    runThrottle 2000 [(0, (1 : Nat)), (1000, 2)] = [(0, 1), (2000, 2)] ∧
    (runThrottle 2000 [(0, (1 : Nat)), (1000, 2)]).length = 2 :=
  ⟨rfl, rfl⟩

/-- C4 (amended): for N ≥ 1 observations of one device within a single
throttle window (all later calls within `wait` ms of the first), lodash
throttle with its default leading and trailing edges dispatches the first
observation immediately and, when N ≥ 2, exactly one further event at the end
of the window carrying the most recent observation; exactly one dispatch
happens only when N = 1. -/
theorem throttleWindowDispatch (wait : Nat) (hw : 0 < wait) (t1 : Nat)
    (e1 : E) (rest : List (Nat × E))
    (hbound : ∀ p ∈ rest, p.1 < t1 + wait)
    (hchain : List.Chain (fun a b => a ≤ b) t1 (rest.map Prod.fst)) :
    runThrottle wait ((t1, e1) :: rest) =
      (t1, e1) ::
        (match pendingAfter none rest with
         | some a => [(t1 + wait, a)]
         | none => []) := by
  have hlen : 2 * ((t1, e1) :: rest).length + wait + 4 =
      (2 * rest.length + wait + 5) + 1 := by
    simp [List.length_cons]
    ring
  rw [runThrottle, hlen, throttleRun_firstStep,
    throttleRun_window wait t1 hw rest (2 * rest.length + wait + 5) t1 none
      (by omega) (le_refl t1) hbound hchain]

/-- C4 witness: three observations in one window dispatch exactly twice, the
trailing dispatch carrying the latest value. -/
theorem throttleWindowDispatch_witness :
    runThrottle 2000 [(0, (7 : Nat)), (500, 8), (900, 9)] =
      [(0, 7), (2000, 9)] := by
  have h := throttleWindowDispatch 2000 (by decide) 0 7 [(500, 8), (900, 9)]
    (by decide) (by simp [List.chain_cons])
  simpa [pendingAfter] using h

/-! ## Claim C8: entity creation on first distance event -/

/-- C8: a distance event for an unknown device first registers a device
tracker, then — exactly when the event carries a battery level — a battery
sensor, then the presence sensor, schedules its timeout check, and only then
applies the measurement; a known device gets no new entities, only the
measurement. -/
theorem handleNewDistanceCreation (mkId : String → String) (cfg : BLEConfig)
    (cs : CompanionState) (es : EntitiesMap) (event : NewDistanceEvent) :
    (entitiesHas es (mkId ("ble " ++ event.tagId)) = false →
      (handleNewDistance mkId cfg cs es event).2.2 =
        SinkAction.addEntity
            (mkId (mkId ("ble " ++ event.tagId) ++ "-tracker"))
            (EntityKind.deviceTracker (event.tagName ++ " Tracker")) ::
          (if event.batteryLevel.isSome then
            [SinkAction.addEntity
              (mkId (mkId ("ble " ++ event.tagId) ++ "-battery"))
              (EntityKind.batterySensor (event.tagName ++ " Battery"))]
          else []) ++
          [SinkAction.addEntity (mkId ("ble " ++ event.tagId))
              (EntityKind.presenceSensor (event.tagName ++ " Room Presence")
                cfg.timeout),
            SinkAction.addInterval
              (mkId ("ble " ++ event.tagId) ++ "_timeout_check"),
            SinkAction.newMeasurement (mkId ("ble " ++ event.tagId))
              event.instanceName event.rssi event.measuredPower event.distance
              event.outOfRange event.batteryLevel]) ∧
    (entitiesHas es (mkId ("ble " ++ event.tagId)) = true →
      (handleNewDistance mkId cfg cs es event).2.1 = es ∧
      (handleNewDistance mkId cfg cs es event).2.2 =
        [SinkAction.newMeasurement (mkId ("ble " ++ event.tagId))
          event.instanceName event.rssi event.measuredPower event.distance
          event.outOfRange event.batteryLevel]) := by
  constructor
  · intro h
    cases hbt : event.batteryLevel.isSome <;>
      simp [handleNewDistance, h, hbt, createRoomPresenceSensor, entitiesAdd]
  · intro h
    simp [handleNewDistance, h]

/-- C8 witness: concrete unknown device with battery data — the tracker,
battery sensor and presence sensor are created, then the measurement is
applied. -/
theorem handleNewDistanceCreation_witness :
    (handleNewDistance (fun x => x) {} {} [] sampleEvent).2.2 =
      [SinkAction.addEntity "ble aa:bb-tracker"
          (EntityKind.deviceTracker "n Tracker"),
        SinkAction.addEntity "ble aa:bb-battery"
          (EntityKind.batterySensor "n Battery"),
        SinkAction.addEntity "ble aa:bb"
          (EntityKind.presenceSensor "n Room Presence" 0),
        SinkAction.addInterval "ble aa:bb_timeout_check",
        SinkAction.newMeasurement "ble aa:bb" "node-a" (-70) (-59) 1 false
          (some 90)] := by
  have h := (handleNewDistanceCreation (fun x => x) {} {} [] sampleEvent).1
    rfl
  simpa [sampleEvent] using h

/-! ## Claim C9: at most one outstanding handshake per identity -/

/-- C9: starting from any pool of not-yet-run discovery tasks, under every
interleaving of task steps and denylist-timer firings, at most one companion
handshake is outstanding per transport identity — the pending cache entry set
before the first suspension point blocks a second concurrent attempt. -/
theorem handshakeMutualExclusion (s0 s : Sys)
    (h0 : ∀ k ∈ s0.tasks, k.phase = TaskPhase.start)
    (hr : Relation.ReflTransGen CStep s0 s) (id : String) :
    handshakeCount s.tasks id ≤ 1 := by
  have hinv : HandshakeInv s := by
    induction hr with
    | refl => exact handshakeInv_init s0 h0
    | tail _ hstep ih => exact handshakeInv_step ih hstep
  exact (hinv id).1

/-- C9 witness: two concurrent discovery tasks for the same identity, before
any step, have no outstanding handshake. -/
theorem handshakeMutualExclusion_witness :
    handshakeCount
      (Sys.mk {} [⟨sampleTag, HandshakeOutcome.timeout15, TaskPhase.start⟩,
        ⟨sampleTag, HandshakeOutcome.raceValue none,
          TaskPhase.start⟩]).tasks "aa:bb" ≤ 1 :=
  handshakeMutualExclusion
    (Sys.mk {} [⟨sampleTag, HandshakeOutcome.timeout15, TaskPhase.start⟩,
      ⟨sampleTag, HandshakeOutcome.raceValue none, TaskPhase.start⟩])
    (Sys.mk {} [⟨sampleTag, HandshakeOutcome.timeout15, TaskPhase.start⟩,
      ⟨sampleTag, HandshakeOutcome.raceValue none, TaskPhase.start⟩])
    (by
      intro k hk
      simp only [List.mem_cons, List.not_mem_nil, or_false] at hk
      rcases hk with rfl | rfl <;> rfl)
    Relation.ReflTransGen.refl "aa:bb"

end BLE
